import Mathlib

/-!
Verification of the analytic_programming repository.

Shallow embedding of the parts of the code the claims are about:

* `src/mcp_server_stdio.py` — the MCP protocol message codec (`MCPMessage`),
  the worker supervisor (`MCPServerStdio`): its stdout read loop, message
  handler, metrics, `execute_task` and `list_tools`.
* `src/orchestrator_enhanced.py` — `OrchestratorTools.validate_scope_exclusivity`,
  `EnhancedOrchestrator.run_planning_phase` and its helpers
  (`_decompose_into_objectives`, `_assign_to_waves`, `_resolve_scope_conflicts`,
  `_define_integration_contracts`).
* `src/ap_studio_backend.py` — `ConnectionManager.broadcast` / `disconnect`.

Python `dict`/`list` JSON values are modelled by the inductive `Json`
(numbers as `Int`; no claim depends on fractional values).  The standard
library functions `json.dumps`/`json.loads` are modelled as the identity on
`Json` trees: a function that in the source receives the result of
`json.loads(s)` receives here a value of type `Except Unit Json`
(`.error ()` standing for a `json.JSONDecodeError`).  Machine effects
(asyncio scheduling, wall-clock timestamps, uuid generation, file writes)
are passed in as explicit parameters or left out when no claim mentions
them.
-/

/-- JSON values, the model of Python objects travelling through `json`. -/
inductive Json where
  | null
  | bool (b : Bool)
  | num (n : Int)
  | str (s : String)
  | arr (elems : List Json)
  | obj (fields : List (String × Json))

mutual

/-- Structural equality on `Json`, the model of Python `==` on decoded values. -/
def Json.beq : Json → Json → Bool
  | .null, .null => true
  | .bool a, .bool b => a == b
  | .num a, .num b => a == b
  | .str a, .str b => a == b
  | .arr a, .arr b => Json.beqList a b
  | .obj a, .obj b => Json.beqFields a b
  | _, _ => false

def Json.beqList : List Json → List Json → Bool
  | [], [] => true
  | x :: xs, y :: ys => Json.beq x y && Json.beqList xs ys
  | _, _ => false

def Json.beqFields : List (String × Json) → List (String × Json) → Bool
  | [], [] => true
  | (k1, v1) :: xs, (k2, v2) :: ys => k1 == k2 && Json.beq v1 v2 && Json.beqFields xs ys
  | _, _ => false

end

mutual

theorem Json.eq_of_beq : ∀ {a b : Json}, Json.beq a b = true → a = b
  | .null, .null, _ => rfl
  | .bool a, .bool b, h => by simp only [Json.beq, beq_iff_eq] at h; simp [h]
  | .num a, .num b, h => by simp only [Json.beq, beq_iff_eq] at h; simp [h]
  | .str a, .str b, h => by simp only [Json.beq, beq_iff_eq] at h; simp [h]
  | .arr a, .arr b, h => by
      simp only [Json.beq] at h
      exact congrArg Json.arr (Json.eqList_of_beqList h)
  | .obj a, .obj b, h => by
      simp only [Json.beq] at h
      exact congrArg Json.obj (Json.eqFields_of_beqFields h)

theorem Json.eqList_of_beqList : ∀ {a b : List Json}, Json.beqList a b = true → a = b
  | [], [], _ => rfl
  | x :: xs, y :: ys, h => by
      simp only [Json.beqList, Bool.and_eq_true] at h
      rw [Json.eq_of_beq h.1, Json.eqList_of_beqList h.2]

theorem Json.eqFields_of_beqFields :
    ∀ {a b : List (String × Json)}, Json.beqFields a b = true → a = b
  | [], [], _ => rfl
  | (k1, v1) :: xs, (k2, v2) :: ys, h => by
      simp only [Json.beqFields, Bool.and_eq_true, beq_iff_eq] at h
      obtain ⟨⟨hk, hv⟩, ht⟩ := h
      rw [hk, Json.eq_of_beq hv, Json.eqFields_of_beqFields ht]

end

mutual

theorem Json.beq_refl : ∀ a : Json, Json.beq a a = true
  | .null => rfl
  | .bool a => by simp [Json.beq]
  | .num a => by simp [Json.beq]
  | .str a => by simp [Json.beq]
  | .arr a => by simp only [Json.beq]; exact Json.beqList_refl a
  | .obj a => by simp only [Json.beq]; exact Json.beqFields_refl a

theorem Json.beqList_refl : ∀ a : List Json, Json.beqList a a = true
  | [] => rfl
  | x :: xs => by
      simp only [Json.beqList, Bool.and_eq_true]
      exact ⟨Json.beq_refl x, Json.beqList_refl xs⟩

theorem Json.beqFields_refl : ∀ a : List (String × Json), Json.beqFields a a = true
  | [] => rfl
  | (k, v) :: xs => by
      simp only [Json.beqFields, Bool.and_eq_true]
      exact ⟨⟨by simp, Json.beq_refl v⟩, Json.beqFields_refl xs⟩

end

instance : BEq Json := ⟨Json.beq⟩

instance : LawfulBEq Json where
  eq_of_beq := Json.eq_of_beq
  rfl := Json.beq_refl _

instance : DecidableEq Json :=
  fun a b => decidable_of_iff (Json.beq a b = true) ⟨Json.eq_of_beq, fun h => h ▸ Json.beq_refl a⟩

/-- First binding of a key in a decoded JSON object (`json.loads` never
produces an object with duplicate keys, so the binding is unique there). -/
def lookupField : List (String × Json) → String → Option Json
  | [], _ => none
  | (k, v) :: rest, key => if k == key then some v else lookupField rest key

/-- Python `d.get(key, dflt)` on a decoded JSON object. -/
def jsonGet (fields : List (String × Json)) (key : String) (dflt : Json) : Json :=
  (lookupField fields key).getD dflt

-- ===========================================================================
-- MCP PROTOCOL — `MCPMessage` (src/mcp_server_stdio.py, lines 54-78)
-- ===========================================================================

/-- Python exceptions that the embedded code can raise. -/
inductive PyErr where
  | jsonDecodeError
  | keyError (key : String)
  | typeError
  | attributeError
deriving DecidableEq

/-- `MCPMessage` dataclass.  The field annotations in the source (`str`,
`Dict`) are unenforced at runtime, so every field is modelled as the raw
decoded `Json` value it holds. -/
structure MCPMessage where
  type : Json
  id : Json
  timestamp : Json
  payload : Json
deriving DecidableEq

/-- `MCPMessage.to_json`: the JSON tree handed to `json.dumps`. -/
def MCPMessage.to_json (m : MCPMessage) : Json :=
  .obj [("type", m.type), ("id", m.id), ("timestamp", m.timestamp), ("payload", m.payload)]

/-- `MCPMessage.from_json` applied to the result of `json.loads(data)`:
a decode failure raises `JSONDecodeError`; subscripting a non-object raises
`TypeError`; a missing field raises `KeyError`. -/
def MCPMessage.from_json (loads_result : Except Unit Json) : Except PyErr MCPMessage :=
  match loads_result with
  | .error _ => .error .jsonDecodeError
  | .ok j =>
    match j with
    | .obj fields =>
      match lookupField fields "type" with
      | none => .error (.keyError "type")
      | some t =>
        match lookupField fields "id" with
        | none => .error (.keyError "id")
        | some i =>
          match lookupField fields "timestamp" with
          | none => .error (.keyError "timestamp")
          | some ts =>
            match lookupField fields "payload" with
            | none => .error (.keyError "payload")
            | some p => .ok { type := t, id := i, timestamp := ts, payload := p }
    | _ => .error .typeError

/-- C9: the MCP message codec round-trips: decoding the encoded form of any
message returns the message itself — `type`, `id`, `timestamp` and `payload`
all survive (`json.dumps`/`json.loads` being the identity on JSON trees). -/
theorem C9_message_codec_roundtrip (m : MCPMessage) :
    MCPMessage.from_json (.ok m.to_json) = .ok m := rfl

-- ===========================================================================
-- ORCHESTRATOR — scope validation and planning (src/orchestrator_enhanced.py)
-- ===========================================================================

/-- A coordination objective, as produced by
`EnhancedOrchestrator._decompose_into_objectives` (a dict with these keys). -/
structure Objective where
  title : String
  worker_type : String
  scope_touch : List String
  scope_forbid : List String
  wave : Nat
deriving DecidableEq

/-- One conflict record appended by `validate_scope_exclusivity`. -/
structure ScopeConflict where
  wave : Nat
  objective1 : String
  objective2 : String
  overlap : List String
deriving DecidableEq

/-- The dict returned by `validate_scope_exclusivity`. -/
structure ValidationResult where
  valid : Bool
  conflicts : List ScopeConflict
  waves_checked : Nat
  total_objectives : Nat
deriving DecidableEq

/-- `waves.setdefault(wave_num, []).append(obj)`: append `o` to the entry for
wave `w`, creating the entry at the end when absent (Python dicts keep
first-insertion key order). -/
def addToWave : List (Nat × List Objective) → Nat → Objective → List (Nat × List Objective)
  | [], w, o => [(w, [o])]
  | (w', os) :: rest, w, o =>
      if w' = w then (w', os ++ [o]) :: rest else (w', os) :: addToWave rest w o

/-- The `waves` dict built by both `validate_scope_exclusivity` and
`_assign_to_waves`: objectives grouped by wave number.  `obj.get('wave', 1)`
always finds the key in decomposed objectives, so the wave field is read
directly. -/
def groupByWave (objs : List Objective) : List (Nat × List Objective) :=
  objs.foldl (fun acc o => addToWave acc o.wave o) []

/-- `set(scope1) & set(scope2)`, as a list.  Python's set iteration order is
unspecified; the intersection is modelled in first-operand order, deduplicated.
No claim inspects the order or multiplicity of the `overlap` field. -/
def scopeOverlap (scope1 scope2 : List String) : List String :=
  (scope1.filter (fun s => scope2.contains s)).dedup

/-- The inner double loop of `validate_scope_exclusivity` over one wave's
objectives: for each pair `(obj1, obj2)` with `obj2` later in the wave list,
record a conflict when their touch scopes overlap. -/
def waveConflicts (w : Nat) : List Objective → List ScopeConflict
  | [] => []
  | o1 :: rest =>
      (rest.filterMap (fun o2 =>
        let overlap := scopeOverlap o1.scope_touch o2.scope_touch
        if overlap.isEmpty then none
        else some { wave := w, objective1 := o1.title, objective2 := o2.title,
                    overlap := overlap }))
        ++ waveConflicts w rest

/-- `OrchestratorTools.validate_scope_exclusivity` (lines 94-132). -/
def validate_scope_exclusivity (objectives : List Objective) : ValidationResult :=
  let waves := groupByWave objectives
  let conflicts := waves.flatMap (fun p => waveConflicts p.1 p.2)
  { valid := conflicts.length == 0
    conflicts := conflicts
    waves_checked := waves.length
    total_objectives := objectives.length }

/-- `EnhancedOrchestrator._resolve_scope_conflicts` (lines 562-574): for each
recorded conflict, every objective whose title equals the conflict's
`objective2` title gets its wave incremented by 1 (in-place mutation of the
objective dicts, modelled as a fold of maps). -/
def resolve_scope_conflicts (objectives : List Objective) (validation : ValidationResult) :
    List Objective :=
  validation.conflicts.foldl
    (fun objs c =>
      objs.map (fun o => if o.title == c.objective2 then { o with wave := o.wave + 1 } else o))
    objectives

/-- Insert a wave number into a sorted list of wave numbers (model of
`sorted(waves_dict.keys())`; the keys are distinct). -/
def insertSorted (n : Nat) : List Nat → List Nat
  | [] => [n]
  | m :: ms => if n ≤ m then n :: m :: ms else m :: insertSorted n ms

def sortKeys (l : List Nat) : List Nat := l.foldr insertSorted []

/-- `EnhancedOrchestrator._assign_to_waves` (lines 554-560):
`[waves_dict[i] for i in sorted(waves_dict.keys())]`. -/
def assign_to_waves (objectives : List Objective) : List (List Objective) :=
  let waves_dict := groupByWave objectives
  (sortKeys (waves_dict.map Prod.fst)).map (fun w => ((waves_dict.lookup w).getD []))

/-- Task types recognised by `_determine_task_type` (`TaskType` enum of
src/orchestrator.py). -/
inductive TaskType where
  | RESET
  | FEATURE
  | BUG
  | REFACTOR
deriving DecidableEq

/-- `task_type.value.title()`. -/
def taskTypeTitle : TaskType → String
  | .RESET => "Reset"
  | .FEATURE => "Feature"
  | .BUG => "Bug"
  | .REFACTOR => "Refactor"

/-- `EnhancedOrchestrator._decompose_into_objectives` (lines 519-552): a RESET
decomposes into two fixed wave-1 objectives; anything else into a single
wave-1 objective whose forbid set is the team configuration's
`global_forbid`. -/
def decompose_into_objectives (task_type : TaskType) (owner_request : String)
    (global_forbid : List String) : List Objective :=
  match task_type with
  | .RESET =>
      [ { title := "RESET: Core module refactoring", worker_type := "claude",
          scope_touch := ["src/core/"], scope_forbid := ["tests/", "src/ui/"], wave := 1 },
        { title := "RESET: Test suite hardening", worker_type := "codex",
          scope_touch := ["tests/"], scope_forbid := ["src/"], wave := 1 } ]
  | t =>
      [ { title := taskTypeTitle t ++ ": " ++ owner_request.take 50, worker_type := "auto",
          scope_touch := ["src/"], scope_forbid := global_forbid, wave := 1 } ]

/-- One integration-contract dict.  `from` and `to` are Lean keywords, so the
source's `from`/`to` keys are the `fromTitle`/`toTitle` fields here. -/
structure IntegrationContract where
  fromTitle : String
  toTitle : String
  description : String
deriving DecidableEq

/-- The contract dict appended for a qualifying pair `(obj1, obj2)`. -/
def contractOf (o1 o2 : Objective) : IntegrationContract :=
  { fromTitle := o1.title, toTitle := o2.title,
    description := o2.title ++ " uses interfaces from " ++ o1.title }

/-- `EnhancedOrchestrator._define_integration_contracts` (lines 576-592):
`for i, obj1 in enumerate(objectives): for obj2 in objectives[i+1:]:
if obj2['wave'] > obj1['wave']: append`. -/
def define_integration_contracts : List Objective → List IntegrationContract
  | [] => []
  | o1 :: rest =>
      (rest.filter (fun o2 => o1.wave < o2.wave)).map (contractOf o1)
        ++ define_integration_contracts rest

/-- `EnhancedOrchestrator._estimate_duration` (lines 594-597); `max` of the
wave numbers (the objective list produced by decomposition is nonempty, so
folding from 0 agrees with Python's `max`). -/
def estimate_duration (objectives : List Objective) : String :=
  let num_waves := objectives.foldl (fun a o => max a o.wave) 0
  "~" ++ toString (num_waves * 10) ++ " minutes (" ++ toString num_waves ++ " waves)"

/-- The fields of the `CoordinationPlan` dataclass (src/orchestrator.py, lines
105-119) that the planning computation determines; `plan_id`,
`analysis_report_id`, `plan_type`, `timestamp` and `file_path` are ids,
timestamps and file-system effects carried through unchanged. -/
structure CoordinationPlan where
  waves : List (List Objective)
  integration_contracts : List IntegrationContract
  scope_validation : ValidationResult
  global_forbid : List String
  estimated_duration : String
deriving DecidableEq

/-- Steps 2-5 of `EnhancedOrchestrator.run_planning_phase` (lines 391-447),
as a function of the decomposed objective list: assign waves, validate, on
conflict resolve + reassign + re-validate once, define contracts, build the
plan. -/
def plan_pipeline (objectives : List Objective) (global_forbid : List String) :
    CoordinationPlan :=
  let waves := assign_to_waves objectives
  let validation := validate_scope_exclusivity objectives
  if validation.valid then
    { waves := waves
      integration_contracts := define_integration_contracts objectives
      scope_validation := validation
      global_forbid := global_forbid
      estimated_duration := estimate_duration objectives }
  else
    let objectives2 := resolve_scope_conflicts objectives validation
    { waves := assign_to_waves objectives2
      integration_contracts := define_integration_contracts objectives2
      scope_validation := validate_scope_exclusivity objectives2
      global_forbid := global_forbid
      estimated_duration := estimate_duration objectives2 }

/-- `EnhancedOrchestrator.run_planning_phase` (lines 412-447): decompose the
analysis into objectives, then run the planning pipeline.  `global_forbid` is
`self.team_config.get('global_forbid', [])`. -/
def run_planning_phase (task_type : TaskType) (owner_request : String)
    (global_forbid : List String) : CoordinationPlan :=
  plan_pipeline (decompose_into_objectives task_type owner_request global_forbid) global_forbid

/-- Two objectives have non-overlapping touch scopes. -/
def scopesDisjoint (a b : Objective) : Bool :=
  a.scope_touch.all (fun s => !(b.scope_touch.contains s))

/-- Every two objectives of a wave have non-overlapping touch scopes. -/
def pairwiseDisjoint : List Objective → Bool
  | [] => true
  | o :: rest => rest.all (scopesDisjoint o) && pairwiseDisjoint rest

/-- The first half of the C1 invariant, on a plan. -/
def planWavesExclusive (p : CoordinationPlan) : Bool :=
  p.waves.all pairwiseDisjoint

/-- The second half of the C1 invariant: no objective's touch scope meets the
plan's global-forbid set. -/
def planGlobalForbidOk (p : CoordinationPlan) : Bool :=
  p.waves.all (fun w =>
    w.all (fun o => o.scope_touch.all (fun s => !(p.global_forbid.contains s))))

/-- C1 counterexample: with a team configuration whose `global_forbid` is
`["src/"]`, a feature request decomposes into an objective touching `src/`,
and `run_planning_phase` emits a plan in which that objective's `scope_touch`
intersects the plan's global-forbid set — `validate_scope_exclusivity` never
checks the global-forbid set, so nothing prevents this. -/
theorem C1_counterexample :
    planGlobalForbidOk (run_planning_phase .FEATURE "add feature" ["src/"]) = false := by
  decide

/-- C1 (amended): every CoordinationPlan emitted by the planning phase has
pairwise non-intersecting `scope_touch` sets within each wave; the
global-forbid half of the claimed invariant does not hold (see the
counterexample). -/
theorem C1_waves_scope_exclusive (task_type : TaskType) (owner_request : String)
    (global_forbid : List String) :
    planWavesExclusive (run_planning_phase task_type owner_request global_forbid) = true := by
  cases task_type <;> rfl

/-- The fold inside `_resolve_scope_conflicts`, characterised: each objective
keeps its title and gains one wave increment per conflict whose `objective2`
title matches its own. -/
theorem resolve_foldl_wave_formula (cs : List ScopeConflict) (objs : List Objective) :
    cs.foldl
      (fun os c =>
        os.map (fun o => if o.title == c.objective2 then { o with wave := o.wave + 1 } else o))
      objs
    = objs.map (fun o =>
        { o with wave := o.wave + cs.countP (fun c => o.title == c.objective2) }) := by
  induction cs generalizing objs with
  | nil => simp
  | cons c cs ih =>
      rw [List.foldl_cons, ih, List.map_map]
      refine List.map_congr_left (fun o _ => ?_)
      simp only [Function.comp_apply, List.countP_cons]
      cases h : o.title == c.objective2 with
      | true =>
          simp only [h, if_true]
          congr 1
          omega
      | false =>
          simp only [h, Bool.false_eq_true, if_false, Nat.add_zero]

/-- How `_resolve_scope_conflicts` transforms the objective list. -/
theorem resolve_scope_conflicts_eq (objs : List Objective) (v : ValidationResult) :
    resolve_scope_conflicts objs v
      = objs.map (fun o =>
          { o with wave := o.wave + v.conflicts.countP (fun c => o.title == c.objective2) }) :=
  resolve_foldl_wave_formula v.conflicts objs

/-- Scenario A of the spec: two distinctly-titled objectives, both in wave 1,
with identical touch scope `["src/core/"]`. -/
def scenarioA : List Objective :=
  [ { title := "Objective 1", worker_type := "auto", scope_touch := ["src/core/"],
      scope_forbid := [], wave := 1 },
    { title := "Objective 2", worker_type := "auto", scope_touch := ["src/core/"],
      scope_forbid := [], wave := 1 } ]

/-- C2 (amended): conflict resolution increments, per recorded conflict, the
wave of every objective whose title equals the conflict's second-named title
(so with unique titles exactly the second-named objective moves, and an
objective never second-named keeps its wave), the planning phase re-runs
validation on the resolved objectives, and scenario A behaves as stated: one
conflict, the second objective moves to wave 2, re-validation is clean. -/
theorem C2_conflict_resolution (objs : List Objective) (global_forbid : List String)
    (h : (validate_scope_exclusivity objs).valid = false) :
    resolve_scope_conflicts objs (validate_scope_exclusivity objs)
      = objs.map (fun o => { o with wave := o.wave + (validate_scope_exclusivity objs).conflicts.countP (fun c => o.title == c.objective2) })
    ∧ (plan_pipeline objs global_forbid).scope_validation
        = validate_scope_exclusivity
            (resolve_scope_conflicts objs (validate_scope_exclusivity objs))
    ∧ (validate_scope_exclusivity scenarioA).conflicts.length = 1
    ∧ (resolve_scope_conflicts scenarioA (validate_scope_exclusivity scenarioA)).map
        (fun o => o.wave) = [1, 2]
    ∧ (validate_scope_exclusivity
          (resolve_scope_conflicts scenarioA (validate_scope_exclusivity scenarioA))).conflicts
        = [] := by
  refine ⟨resolve_scope_conflicts_eq _ _, ?_, by decide, by decide, by decide⟩
  simp only [plan_pipeline, h, Bool.false_eq_true, if_false]

/-- C2 witness: scenario A itself fails initial validation, so the amended
theorem applies to it. -/
theorem C2_witness :
    (validate_scope_exclusivity scenarioA).valid = false
    ∧ (validate_scope_exclusivity scenarioA).conflicts.length = 1
    ∧ (resolve_scope_conflicts scenarioA (validate_scope_exclusivity scenarioA)).map
        (fun o => o.wave) = [1, 2] :=
  ⟨by decide, (C2_conflict_resolution scenarioA [] (by decide)).2.2.1,
    (C2_conflict_resolution scenarioA [] (by decide)).2.2.2.1⟩

/-- C2 counterexample: two conflicting objectives sharing one title.  The
validator records exactly one conflict, but resolution moves *both*
objectives (the first-named included) to wave 2, because deferral matches
objectives by title — the claim's "leaves every other objective's wave
unchanged" fails, and re-validation still reports a conflict. -/
theorem C2_counterexample :
    (validate_scope_exclusivity
        [ { title := "RESET: Core", worker_type := "auto", scope_touch := ["src/core/"],
            scope_forbid := [], wave := 1 },
          { title := "RESET: Core", worker_type := "auto", scope_touch := ["src/core/"],
            scope_forbid := [], wave := 1 } ]).conflicts.length = 1
    ∧ (resolve_scope_conflicts
        [ { title := "RESET: Core", worker_type := "auto", scope_touch := ["src/core/"],
            scope_forbid := [], wave := 1 },
          { title := "RESET: Core", worker_type := "auto", scope_touch := ["src/core/"],
            scope_forbid := [], wave := 1 } ]
        (validate_scope_exclusivity
          [ { title := "RESET: Core", worker_type := "auto", scope_touch := ["src/core/"],
              scope_forbid := [], wave := 1 },
            { title := "RESET: Core", worker_type := "auto", scope_touch := ["src/core/"],
              scope_forbid := [], wave := 1 } ])).map (fun o => o.wave) = [2, 2] := by
  constructor <;> decide

/-- C7: on a list of objectives the validator reports valid, there are zero
conflicts, and conflict resolution leaves every objective (in particular its
wave number) unchanged. -/
theorem C7_validation_resolution_idempotent (objs : List Objective)
    (h : (validate_scope_exclusivity objs).valid = true) :
    (validate_scope_exclusivity objs).conflicts = []
    ∧ resolve_scope_conflicts objs (validate_scope_exclusivity objs) = objs := by
  have hlen : (validate_scope_exclusivity objs).conflicts.length = 0 := by
    simpa [validate_scope_exclusivity] using h
  have hc : (validate_scope_exclusivity objs).conflicts = [] := List.length_eq_zero.mp hlen
  exact ⟨hc, by simp [resolve_scope_conflicts, hc]⟩

/-- C7 witness: a concrete already-valid list (the RESET decomposition). -/
theorem C7_witness :
    (validate_scope_exclusivity (decompose_into_objectives .RESET "restructure" [])).valid = true
    ∧ (validate_scope_exclusivity (decompose_into_objectives .RESET "restructure" [])).conflicts
        = []
    ∧ resolve_scope_conflicts (decompose_into_objectives .RESET "restructure" [])
        (validate_scope_exclusivity (decompose_into_objectives .RESET "restructure" []))
        = decompose_into_objectives .RESET "restructure" [] :=
  ⟨by decide,
    (C7_validation_resolution_idempotent _ (by decide)).1,
    (C7_validation_resolution_idempotent _ (by decide)).2⟩

/-- All pairs of list elements in list order (`for i, x in enumerate(l): for y
in l[i+1:]`), used to state what `_define_integration_contracts` enumerates. -/
def orderedPairs {α : Type} : List α → List (α × α)
  | [] => []
  | x :: xs => xs.map (Prod.mk x) ++ orderedPairs xs

theorem define_integration_contracts_eq (objs : List Objective) :
    define_integration_contracts objs
      = ((orderedPairs objs).filter (fun p => p.1.wave < p.2.wave)).map
          (fun p => contractOf p.1 p.2) := by
  induction objs with
  | nil => rfl
  | cons o rest ih =>
      simp only [define_integration_contracts, orderedPairs, List.filter_append,
        List.map_append, ih, List.filter_map, List.map_map]
      rfl

theorem mem_orderedPairs {α : Type} (p : α × α) :
    ∀ l : List α, p ∈ orderedPairs l → p.1 ∈ l ∧ p.2 ∈ l := by
  intro l
  induction l with
  | nil => intro h; cases h
  | cons x xs ih =>
      intro h
      rcases List.mem_append.mp h with h1 | h2
      · rcases List.mem_map.mp h1 with ⟨a, ha, rfl⟩
        exact ⟨List.mem_cons_self _ _, List.mem_cons_of_mem _ ha⟩
      · exact ⟨List.mem_cons_of_mem _ (ih h2).1, List.mem_cons_of_mem _ (ih h2).2⟩

theorem count_map_mk {α : Type} [DecidableEq α] (x b : α) (xs : List α) :
    (xs.map (Prod.mk x)).count (x, b) = xs.count b := by
  induction xs with
  | nil => rfl
  | cons y ys ih =>
      simp only [List.map_cons, List.count_cons, ih]
      congr 1
      by_cases h : y = b
      · simp [h]
      · simp [h, beq_iff_eq, Prod.ext_iff]

theorem count_orderedPairs {α : Type} [DecidableEq α] :
    ∀ (l : List α), l.Nodup → ∀ (i j : Nat) (hij : i < j) (hj : j < l.length),
      (orderedPairs l).count (l.get ⟨i, Nat.lt_trans hij hj⟩, l.get ⟨j, hj⟩) = 1 := by
  intro l
  induction l with
  | nil => intro _ i j _ hj; exact absurd hj (Nat.not_lt_zero j)
  | cons x xs ih =>
      intro hnd i j hij hj
      obtain ⟨hx, hxs⟩ := List.nodup_cons.mp hnd
      match i, j with
      | 0, j + 1 =>
          have hj' : j < xs.length := Nat.lt_of_succ_lt_succ hj
          show (xs.map (Prod.mk x) ++ orderedPairs xs).count (x, xs.get ⟨j, hj'⟩) = 1
          rw [List.count_append]
          have h1 : (xs.map (Prod.mk x)).count (x, xs.get ⟨j, hj'⟩)
              = xs.count (xs.get ⟨j, hj'⟩) := count_map_mk x _ xs
          have h2 : (orderedPairs xs).count (x, xs.get ⟨j, hj'⟩) = 0 := by
            refine List.count_eq_zero.mpr (fun hmem => ?_)
            exact hx (mem_orderedPairs _ xs hmem).1
          rw [h1, h2, List.count_eq_one_of_mem hxs (List.get_mem _ _ _)]
      | i + 1, j + 1 =>
          have hij' : i < j := Nat.lt_of_succ_lt_succ hij
          have hj' : j < xs.length := Nat.lt_of_succ_lt_succ hj
          show (xs.map (Prod.mk x) ++ orderedPairs xs).count
              (xs.get ⟨i, Nat.lt_trans hij' hj'⟩, xs.get ⟨j, hj'⟩) = 1
          rw [List.count_append]
          have h1 : (xs.map (Prod.mk x)).count
              (xs.get ⟨i, Nat.lt_trans hij' hj'⟩, xs.get ⟨j, hj'⟩) = 0 := by
            refine List.count_eq_zero.mpr (fun hmem => ?_)
            rcases List.mem_map.mp hmem with ⟨a, _, heq⟩
            have : x = xs.get ⟨i, Nat.lt_trans hij' hj'⟩ := congrArg Prod.fst heq
            exact hx (this ▸ List.get_mem _ _ _)
          rw [h1, ih hxs i j hij' hj']

theorem contractOf_eq_iff (a b c d : Objective) :
    contractOf a b = contractOf c d ↔ a.title = c.title ∧ b.title = d.title := by
  constructor
  · intro h
    simp only [contractOf, IntegrationContract.mk.injEq] at h
    exact ⟨h.1, h.2.1⟩
  · rintro ⟨h1, h2⟩
    simp [contractOf, h1, h2]

/-- C8 (amended): for positions `i < j` in the planned list (titles distinct),
`_define_integration_contracts` records exactly one contract from `objs[i]` to
`objs[j]` when the later-listed objective's wave is strictly greater, and no
contract at all otherwise — in particular, a pair whose earlier-listed member
has the strictly greater wave yields no contract. -/
theorem C8_integration_contracts (objs : List Objective)
    (h : (objs.map (fun o => o.title)).Nodup)
    (i j : Nat) (hij : i < j) (hj : j < objs.length) :
    (define_integration_contracts objs).count
        (contractOf (objs.get ⟨i, Nat.lt_trans hij hj⟩) (objs.get ⟨j, hj⟩))
      = if (objs.get ⟨i, Nat.lt_trans hij hj⟩).wave < (objs.get ⟨j, hj⟩).wave then 1
        else 0 := by
  have hnd : objs.Nodup := List.Nodup.of_map _ h
  have hinj : ∀ x ∈ objs, ∀ y ∈ objs, x.title = y.title → x = y :=
    fun x hx y hy => List.inj_on_of_nodup_map h hx hy
  have hmi : objs.get ⟨i, Nat.lt_trans hij hj⟩ ∈ objs := List.get_mem _ _ _
  have hmj : objs.get ⟨j, hj⟩ ∈ objs := List.get_mem _ _ _
  rw [define_integration_contracts_eq]
  rw [List.count, List.countP_map]
  have hcongr :
      ((orderedPairs objs).filter (fun p => p.1.wave < p.2.wave)).countP
          ((fun c => c == contractOf (objs.get ⟨i, Nat.lt_trans hij hj⟩) (objs.get ⟨j, hj⟩))
            ∘ (fun p => contractOf p.1 p.2))
        = ((orderedPairs objs).filter (fun p => p.1.wave < p.2.wave)).countP
            (fun p => p == (objs.get ⟨i, Nat.lt_trans hij hj⟩, objs.get ⟨j, hj⟩)) := by
    refine List.countP_congr (fun p hp => ?_)
    have hpo : p ∈ orderedPairs objs := (List.mem_filter.mp hp).1
    obtain ⟨hp1, hp2⟩ := mem_orderedPairs p objs hpo
    simp only [Function.comp_apply, beq_iff_eq]
    constructor
    · intro heq
      obtain ⟨ht1, ht2⟩ := (contractOf_eq_iff _ _ _ _).mp heq
      have e1 : p.1 = objs.get ⟨i, Nat.lt_trans hij hj⟩ := hinj _ hp1 _ hmi ht1
      have e2 : p.2 = objs.get ⟨j, hj⟩ := hinj _ hp2 _ hmj ht2
      exact Prod.ext e1 e2
    · intro heq
      rw [heq]
  rw [hcongr]
  rw [show ((orderedPairs objs).filter (fun p => p.1.wave < p.2.wave)).countP
        (fun p => p == (objs.get ⟨i, Nat.lt_trans hij hj⟩, objs.get ⟨j, hj⟩))
      = ((orderedPairs objs).filter (fun p => p.1.wave < p.2.wave)).count
          (objs.get ⟨i, Nat.lt_trans hij hj⟩, objs.get ⟨j, hj⟩) from rfl]
  by_cases hw : (objs.get ⟨i, Nat.lt_trans hij hj⟩).wave < (objs.get ⟨j, hj⟩).wave
  · rw [if_pos hw, List.count_filter (by simpa using hw)]
    exact count_orderedPairs objs hnd i j hij hj
  · rw [if_neg hw]
    refine List.count_eq_zero.mpr (fun hmem => ?_)
    have := (List.mem_filter.mp hmem).2
    simp only [decide_eq_true_eq] at this
    exact hw this

/-- C8 witness: two distinctly-titled objectives, earlier one in wave 1 and
later one in wave 2 — exactly one contract, from the first to the second. -/
theorem C8_witness :
    (define_integration_contracts
        [ { title := "A", worker_type := "auto", scope_touch := ["src/a/"],
            scope_forbid := [], wave := 1 },
          { title := "B", worker_type := "auto", scope_touch := ["src/b/"],
            scope_forbid := [], wave := 2 } ]).count
      (contractOf
        { title := "A", worker_type := "auto", scope_touch := ["src/a/"],
          scope_forbid := [], wave := 1 }
        { title := "B", worker_type := "auto", scope_touch := ["src/b/"],
          scope_forbid := [], wave := 2 }) = 1 := by
  have := C8_integration_contracts
    [ { title := "A", worker_type := "auto", scope_touch := ["src/a/"],
        scope_forbid := [], wave := 1 },
      { title := "B", worker_type := "auto", scope_touch := ["src/b/"],
        scope_forbid := [], wave := 2 } ]
    (by decide) 0 1 (by decide) (by decide)
  simpa using this

/-- C8 counterexample: when the objective with the strictly greater wave comes
*earlier* in the list, no contract is recorded for the pair, although the
claim requires one from the earlier-wave objective to the later-wave one. -/
theorem C8_counterexample :
    ({ title := "A", worker_type := "auto", scope_touch := ["src/a/"],
       scope_forbid := [], wave := 1 } : Objective).wave
      < ({ title := "B", worker_type := "auto", scope_touch := ["src/b/"],
           scope_forbid := [], wave := 2 } : Objective).wave
    ∧ define_integration_contracts
        [ { title := "B", worker_type := "auto", scope_touch := ["src/b/"],
            scope_forbid := [], wave := 2 },
          { title := "A", worker_type := "auto", scope_touch := ["src/a/"],
            scope_forbid := [], wave := 1 } ] = [] := by
  constructor <;> decide

-- ===========================================================================
-- MCP SUPERVISOR — read loop, message handler, metrics, execute_task,
-- list_tools (src/mcp_server_stdio.py, class MCPServerStdio)
-- ===========================================================================

/-- `WorkerActivity` dataclass.  Payload-derived fields hold raw decoded
values, so they are `Json` (`None` is `Json.null`). -/
structure WorkerActivity where
  worker_id : String
  timestamp : Json
  activity_type : String
  tool_name : Json := .null
  description : Json := .str ""
  file_path : Json := .null
  progress : Json := .null
deriving DecidableEq

/-- `WorkerMetrics` dataclass (lines 124-132).  `tools_used` is keyed by the
raw `payload.get('tool')` value; `files_modified` holds the raw appended
values.  The two float fields (`avg_task_duration`, `uptime_seconds`) are
wall-clock measurements no claim mentions and are not modelled. -/
structure WorkerMetrics where
  worker_id : String
  tasks_completed : Nat := 0
  tasks_failed : Nat := 0
  tools_used : List (Json × Nat) := []
  files_modified : List Json := []
deriving DecidableEq

def WorkerMetrics.init (worker_id : String) : WorkerMetrics := { worker_id := worker_id }

/-- `d[k] = d.get(k, 0) + 1` on a Python dict: update in place, else append. -/
def dictIncr : List (Json × Nat) → Json → List (Json × Nat)
  | [], k => [(k, 1)]
  | (k', v) :: rest, k =>
      if k' == k then (k', v + 1) :: rest else (k', v) :: dictIncr rest k

/-- `payload.get(key, dflt)`: raises `AttributeError` when the payload value
is not a dict. -/
def pyGet (payload : Json) (key : String) (dflt : Json) : Except PyErr Json :=
  match payload with
  | .obj fields => .ok (jsonGet fields key dflt)
  | _ => .error .attributeError

/-- Python iteration over a decoded JSON value: a list yields its elements, a
string its characters, a dict its keys; anything else raises `TypeError`. -/
def pyIter : Json → Except PyErr (List Json)
  | .arr xs => .ok xs
  | .str s => .ok (s.data.map (fun c => .str c.toString))
  | .obj fields => .ok (fields.map (fun kv => Json.str kv.1))
  | _ => .error .typeError

/-- Outcome of `_handle_message`: the metrics after the call (including the
mutations already applied when an exception escapes), the activities passed
to `_on_activity`, and the escaping exception if any. -/
structure HandleResult where
  metrics : WorkerMetrics
  activities : List WorkerActivity
  error : Option PyErr
deriving DecidableEq

/-- `MCPServerStdio._handle_message` (lines 370-455), restricted to its
effect on the metrics and the emitted activities.  `print` calls and
WebSocket broadcasts are output-only; resolving a `TOOLS_RESPONSE` future is
the `response` input of `list_tools` below.  The activity `worker_id` is
`self.config.worker_id`, carried here in the metrics record. -/
def handle_message (metrics : WorkerMetrics) (message : MCPMessage) : HandleResult :=
  let payload := message.payload
  if message.type == .str "initialized" then
    ⟨metrics, [], none⟩
  else if message.type == .str "task_started" then
    match pyGet payload "task_id" .null with
    | .error e => ⟨metrics, [], some e⟩
    | .ok _ => ⟨metrics, [], none⟩
  else if message.type == .str "tool_use" then
    match pyGet payload "tool" .null with
    | .error e => ⟨metrics, [], some e⟩
    | .ok tool_name =>
      let m2 := { metrics with tools_used := dictIncr metrics.tools_used tool_name }
      match pyGet payload "description" (.str ""), pyGet payload "file" .null with
      | .ok desc, .ok file =>
          ⟨m2, [{ worker_id := m2.worker_id, timestamp := message.timestamp,
                  activity_type := "tool_use", tool_name := tool_name,
                  description := desc, file_path := file }], none⟩
      | .error e, _ => ⟨m2, [], some e⟩
      | _, .error e => ⟨m2, [], some e⟩
  else if message.type == .str "progress" then
    match pyGet payload "progress" (.num 0) with
    | .error e => ⟨metrics, [], some e⟩
    | .ok prog =>
      match pyGet payload "message" (.str "") with
      | .error e => ⟨metrics, [], some e⟩
      | .ok msg =>
          ⟨metrics, [{ worker_id := metrics.worker_id, timestamp := message.timestamp,
                       activity_type := "progress", description := msg,
                       progress := prog }], none⟩
  else if message.type == .str "task_complete" then
    match pyGet payload "task_id" .null with
    | .error e => ⟨metrics, [], some e⟩
    | .ok _ =>
      let m2 := { metrics with tasks_completed := metrics.tasks_completed + 1 }
      match pyGet payload "files_modified" (.arr []) with
      | .error e => ⟨m2, [], some e⟩
      | .ok files =>
        match pyIter files with
        | .error e => ⟨m2, [], some e⟩
        | .ok fs =>
            let files2 :=
              fs.foldl (fun acc file => if acc.contains file then acc else acc ++ [file])
                m2.files_modified
            ⟨{ m2 with files_modified := files2 }, [], none⟩
  else if message.type == .str "task_error" then
    match pyGet payload "task_id" .null with
    | .error e => ⟨metrics, [], some e⟩
    | .ok _ =>
      match pyGet payload "error" (.str "Unknown error") with
      | .error e => ⟨metrics, [], some e⟩
      | .ok _ => ⟨{ metrics with tasks_failed := metrics.tasks_failed + 1 }, [], none⟩
  else if message.type == .str "log" then
    match pyGet payload "level" (.str "info") with
    | .error e => ⟨metrics, [], some e⟩
    | .ok log_type =>
      match pyGet payload "message" (.str "") with
      | .error e => ⟨metrics, [], some e⟩
      | .ok message_text =>
        let activity_type :=
          if log_type == .str "debug" then "log"
          else if log_type == .str "info" then "log"
          else if log_type == .str "warning" then "warning"
          else if log_type == .str "error" then "error"
          else "log"
        ⟨metrics, [{ worker_id := metrics.worker_id, timestamp := message.timestamp,
                     activity_type := activity_type,
                     description := message_text }], none⟩
  else if message.type == .str "tools_response" then
    match pyGet payload "request_id" .null with
    | .error e => ⟨metrics, [], some e⟩
    | .ok _ =>
      match pyGet payload "tools" (.arr []) with
      | .error e => ⟨metrics, [], some e⟩
      | .ok _ => ⟨metrics, [], none⟩
  else ⟨metrics, [], none⟩

/-- Outcome of one iteration of the `_read_stdout` loop body. -/
inductive ReadStep where
  | breakLoop (metrics : WorkerMetrics)
  | continueLoop (metrics : WorkerMetrics) (emitted : List WorkerActivity)
deriving DecidableEq

/-- One iteration of `MCPServerStdio._read_stdout` (lines 323-350) on the
line just read: an empty read breaks (EOF); a `json.JSONDecodeError` is
caught and surfaced as a `log` activity carrying the stripped line text
(`now` is `datetime.now().isoformat()`); any other exception — a `KeyError`
or `TypeError` from `MCPMessage.from_json` on decodable-but-malformed input,
or an error escaping `_handle_message` — falls to the generic handler, which
prints and breaks the loop. -/
def read_stdout_step (now : String) (metrics : WorkerMetrics) (line : String)
    (loads_result : Except Unit Json) : ReadStep :=
  if line = "" then .breakLoop metrics
  else
    match MCPMessage.from_json loads_result with
    | .ok message =>
        let r := handle_message metrics message
        match r.error with
        | none => .continueLoop r.metrics r.activities
        | some _ => .breakLoop r.metrics
    | .error .jsonDecodeError =>
        .continueLoop metrics
          [{ worker_id := metrics.worker_id, timestamp := .str now,
             activity_type := "log", description := .str line.trim }]
    | .error _ => .breakLoop metrics

/-- The `_read_stdout` loop over a sequence of lines (each paired with its
`json.loads` outcome), returning the final metrics. -/
def run_read_loop (now : String) (metrics : WorkerMetrics) :
    List (String × Except Unit Json) → WorkerMetrics
  | [] => metrics
  | (line, loads_result) :: rest =>
    match read_stdout_step now metrics line loads_result with
    | .breakLoop m => m
    | .continueLoop m _ => run_read_loop now m rest

/-- The dict returned by `MCPServerStdio.execute_task` (lines 474-499). -/
structure ExecuteTaskResult where
  success : Bool
  task_id : Json
  files_modified : Json
  worker_id : String
deriving DecidableEq

/-- `MCPServerStdio.execute_task`: sends `EXECUTE_TASK`, then
`await asyncio.sleep(5)` and returns a fixed success dict.  `observed` is
the stream of messages the worker emits during that wait — the function
never consults it. -/
def execute_task (worker_id : String) (message_id_counter : Nat)
    (task : List (String × Json)) (observed : List MCPMessage) : ExecuteTaskResult :=
  { success := true
    task_id := jsonGet task "task_id" (.str ("task_" ++ toString message_id_counter))
    files_modified := jsonGet task "scope_touch" (.arr [])
    worker_id := worker_id }

/-- The supervisor state `list_tools` reads and writes: the message-id
counter and the `_pending_requests` dict (modelled as its key-membership
function, a dict having no duplicate keys). -/
structure SupervisorState where
  worker_id : String
  message_id_counter : Nat
  pending_requests : String → Bool

/-- Result of a `list_tools` call. -/
inductive ToolsResult where
  | tools (ts : List MCPTool)
  | discoveryTimeout (worker_id : String) (timeout : Nat)
  | pythonError (e : PyErr)

/-- `MCPTool` dataclass parsed from one `tool_data` dict with the defaults of
`list_tools` (`returns` defaults to `None`, i.e. null). -/
structure MCPTool where
  name : Json
  description : Json
  parameters : Json
  returns : Json
  examples : Json
deriving DecidableEq

def parse_tool (tool_data : Json) : Except PyErr MCPTool :=
  match tool_data with
  | .obj fields =>
      .ok { name := jsonGet fields "name" (.str "unknown")
            description := jsonGet fields "description" (.str "")
            parameters := jsonGet fields "parameters" (.obj [])
            returns := jsonGet fields "returns" .null
            examples := jsonGet fields "examples" (.arr []) }
  | _ => .error .attributeError

def parse_tools : List Json → Except PyErr (List MCPTool)
  | [] => .ok []
  | t :: ts =>
    match parse_tool t with
    | .error e => .error e
    | .ok tool =>
      match parse_tools ts with
      | .error e => .error e
      | .ok tools => .ok (tool :: tools)

/-- `MCPServerStdio.list_tools` (lines 501-548).  `response` is `some
tools_data` when a matching `TOOLS_RESPONSE` resolves the pending future
before the timeout (`tools_data = payload.get('tools', [])`, see
`_handle_message`), `none` when the worker never replies and
`asyncio.wait_for` raises `TimeoutError`.  The `finally` block pops the
pending-request entry on every path. -/
def list_tools (st : SupervisorState) (timeout : Nat) (response : Option Json) :
    ToolsResult × SupervisorState :=
  let request_id := "list_tools_" ++ toString st.message_id_counter
  let pending1 : String → Bool := fun k => if k == request_id then true else st.pending_requests k
  let counter1 := st.message_id_counter + 1
  let final : String → Bool := fun k => if k == request_id then false else pending1 k
  match response with
  | none =>
      (.discoveryTimeout st.worker_id timeout,
       { st with message_id_counter := counter1, pending_requests := final })
  | some tools_data =>
      match pyIter tools_data with
      | .error e =>
          (.pythonError e,
           { st with message_id_counter := counter1, pending_requests := final })
      | .ok items =>
        match parse_tools items with
        | .error e =>
            (.pythonError e,
             { st with message_id_counter := counter1, pending_requests := final })
        | .ok tools =>
            (.tools tools,
             { st with message_id_counter := counter1, pending_requests := final })

/-- The metrics carried by a read-loop step outcome. -/
def ReadStep.metrics : ReadStep → WorkerMetrics
  | .breakLoop m => m
  | .continueLoop m _ => m

/-- C3: `execute_task` returns success without consulting any message the
worker emits — its result on an arbitrary observed message stream (including
one with no `TASK_COMPLETE`/`TASK_ERROR` at all) equals its result on the
empty stream, and `success` is unconditionally `true`.  This is the
fixed-sleep placeholder path: no completion signal is awaited and no
capability flag reports the bounded wait. -/
theorem C3_execute_task_ignores_completion (worker_id : String)
    (message_id_counter : Nat) (task : List (String × Json))
    (observed : List MCPMessage) :
    execute_task worker_id message_id_counter task observed
        = execute_task worker_id message_id_counter task []
    ∧ (execute_task worker_id message_id_counter task observed).success = true :=
  ⟨rfl, rfl⟩

/-- C4: for every supervisor state and every timeout value, `list_tools`
against a worker that never sends the matching `TOOLS_RESPONSE` fails with
the tool-discovery timeout error, and afterwards the pending-request map has
no entry for the request id. -/
theorem C4_list_tools_timeout_cleanup (st : SupervisorState) (timeout : Nat) :
    (list_tools st timeout none).1 = .discoveryTimeout st.worker_id timeout
    ∧ (list_tools st timeout none).2.pending_requests
        ("list_tools_" ++ toString st.message_id_counter) = false := by
  constructor
  · rfl
  · simp [list_tools]

/-- C5 (amended): a line that fails JSON decoding (`json.JSONDecodeError`)
never stops the read loop: the step continues and surfaces exactly one
`log`-type activity whose description is the stripped raw line.  (A line that
*does* decode as JSON but is not a protocol message stops the loop instead —
see the counterexample.) -/
theorem C5_json_decode_error_recovered (now : String) (metrics : WorkerMetrics)
    (line : String) (h : line ≠ "") :
    read_stdout_step now metrics line (.error ())
      = .continueLoop metrics
          [{ worker_id := metrics.worker_id, timestamp := .str now,
             activity_type := "log", description := .str line.trim }] := by
  simp [read_stdout_step, h, MCPMessage.from_json]

/-- C5 witness: a concrete non-JSON line. -/
theorem C5_witness :
    "worker diagnostic chatter" ≠ ""
    ∧ read_stdout_step "2025-01-01T00:00:00" (WorkerMetrics.init "worker_1")
        "worker diagnostic chatter" (.error ())
      = .continueLoop (WorkerMetrics.init "worker_1")
          [{ worker_id := "worker_1", timestamp := .str "2025-01-01T00:00:00",
             activity_type := "log",
             description := .str ("worker diagnostic chatter".trim) }] :=
  ⟨by decide,
    C5_json_decode_error_recovered "2025-01-01T00:00:00" (WorkerMetrics.init "worker_1")
      "worker diagnostic chatter" (by decide)⟩

/-- C5 counterexample: the line `"{}"` decodes as JSON (to the empty object)
but is not a protocol message; `from_json` raises `KeyError`, which is *not*
caught by the `json.JSONDecodeError` handler — the loop breaks and no log
activity is emitted, contradicting the claim for this malformed line. -/
theorem C5_counterexample :
    read_stdout_step "2025-01-01T00:00:00" (WorkerMetrics.init "worker_1")
        "{}" (.ok (.obj []))
      = .breakLoop (WorkerMetrics.init "worker_1") := by decide

theorem foldl_guard_nodup (fs : List Json) :
    ∀ acc : List Json, acc.Nodup →
      (fs.foldl (fun acc file => if acc.contains file then acc else acc ++ [file]) acc).Nodup := by
  induction fs with
  | nil => intro acc h; exact h
  | cons f fs ih =>
      intro acc h
      simp only [List.foldl_cons]
      by_cases hc : acc.contains f = true
      · rw [if_pos hc]; exact ih acc h
      · rw [if_neg hc]
        refine ih _ ?_
        have hf : f ∉ acc := by
          intro hmem
          exact hc (List.elem_iff.mpr hmem)
        rw [List.nodup_append]
        exact ⟨h, List.nodup_singleton f, by simpa using hf⟩

set_option maxHeartbeats 2000000 in
theorem handle_message_files_nodup (metrics : WorkerMetrics) (message : MCPMessage)
    (h : metrics.files_modified.Nodup) :
    (handle_message metrics message).metrics.files_modified.Nodup := by
  unfold handle_message
  dsimp only
  repeat' split
  all_goals first
    | exact h
    | exact foldl_guard_nodup _ _ h

theorem read_stdout_step_metrics_nodup (now : String) (metrics : WorkerMetrics)
    (line : String) (loads_result : Except Unit Json)
    (h : metrics.files_modified.Nodup) :
    (read_stdout_step now metrics line loads_result).metrics.files_modified.Nodup := by
  unfold read_stdout_step
  dsimp only
  repeat' split
  all_goals first
    | exact h
    | exact handle_message_files_nodup _ _ h

theorem run_read_loop_files_nodup (now : String) :
    ∀ (inputs : List (String × Except Unit Json)) (metrics : WorkerMetrics),
      metrics.files_modified.Nodup →
      (run_read_loop now metrics inputs).files_modified.Nodup := by
  intro inputs
  induction inputs with
  | nil => intro m h; exact h
  | cons p rest ih =>
      intro m h
      obtain ⟨line, loads_result⟩ := p
      have hstep := read_stdout_step_metrics_nodup now m line loads_result h
      cases heq : read_stdout_step now m line loads_result with
      | breakLoop m2 =>
          rw [heq] at hstep
          simpa [run_read_loop, heq] using hstep
      | continueLoop m2 acts =>
          rw [heq] at hstep
          simp only [run_read_loop, heq]
          exact ih m2 hstep

/-- C10: from a fresh supervisor (empty `files_modified`), whatever sequence
of lines and decoded messages the worker emits — in particular
`TASK_COMPLETE` payloads repeating file paths — the `files_modified` metric
never contains a duplicate entry: the handler appends a path only when it is
not already present. -/
theorem C10_files_modified_no_duplicates (now worker_id : String)
    (inputs : List (String × Except Unit Json)) :
    (run_read_loop now (WorkerMetrics.init worker_id) inputs).files_modified.Nodup :=
  run_read_loop_files_nodup now inputs (WorkerMetrics.init worker_id) List.nodup_nil

-- ===========================================================================
-- AP STUDIO BACKEND — `ConnectionManager` (src/ap_studio_backend.py, 68-101)
-- ===========================================================================

/-- `ConnectionManager.disconnect` on one channel's connection list
(`if websocket in list: list.remove(websocket)` — removes the first
occurrence when present).  WebSocket objects compare by identity, so
connections are modelled by identifiers. -/
def ConnectionManager.disconnect (connections : List Nat) (websocket : Nat) : List Nat :=
  if connections.contains websocket then connections.erase websocket else connections

/-- `ConnectionManager.broadcast` on one channel: try `send_json` to each
registered connection in order (`send_fails` says whose send raises),
collecting the failing ones, then disconnect each of them.  Returns the
connections actually sent to (the delivery trace) and the channel's
registration list afterwards. -/
def ConnectionManager.broadcast (connections : List Nat) (send_fails : Nat → Bool) :
    List Nat × List Nat :=
  let r := connections.foldl
    (fun acc c => if send_fails c then (acc.1, acc.2 ++ [c]) else (acc.1 ++ [c], acc.2))
    ([], [])
  (r.1, r.2.foldl ConnectionManager.disconnect connections)

theorem foldl_partition (p : Nat → Bool) :
    ∀ (l : List Nat) (a b : List Nat),
      l.foldl (fun acc c => if p c then (acc.1, acc.2 ++ [c]) else (acc.1 ++ [c], acc.2)) (a, b)
        = (a ++ l.filter (fun c => !p c), b ++ l.filter p) := by
  intro l
  induction l with
  | nil => intro a b; simp
  | cons x xs ih =>
      intro a b
      simp only [List.foldl_cons]
      by_cases hx : p x = true
      · rw [if_pos hx, ih]
        simp [List.filter_cons, hx, List.append_assoc]
      · rw [if_neg hx, ih]
        simp [List.filter_cons, hx, List.append_assoc]

theorem foldl_erase_cons (x : Nat) :
    ∀ (ys xs : List Nat), (∀ y ∈ ys, y ≠ x) →
      ys.foldl List.erase (x :: xs) = x :: ys.foldl List.erase xs := by
  intro ys
  induction ys with
  | nil => intro xs _; rfl
  | cons y ys ih =>
      intro xs hy
      have hyx : x ≠ y := (hy y (List.mem_cons_self _ _)).symm
      simp only [List.foldl_cons]
      rw [List.erase_cons_tail (by simpa using hyx)]
      exact ih (xs.erase y) (fun z hz => hy z (List.mem_cons_of_mem _ hz))

theorem erase_foldl_filter (p : Nat → Bool) :
    ∀ l : List Nat, (l.filter p).foldl List.erase l = l.filter (fun c => !p c) := by
  intro l
  induction l with
  | nil => rfl
  | cons x xs ih =>
      by_cases hx : p x = true
      · simp only [List.filter_cons, hx, if_pos, List.foldl_cons, List.erase_cons_head]
        rw [ih]
        simp [hx]
      · have hmem : ∀ y ∈ xs.filter p, y ≠ x := by
          intro y hy hyx
          have hp := (List.mem_filter.mp hy).2
          rw [hyx] at hp
          exact hx hp
        simp only [List.filter_cons]
        rw [if_neg hx, foldl_erase_cons x (xs.filter p) xs hmem, ih]
        have hnx : (!p x) = true := by
          cases hpx : p x
          · rfl
          · exact absurd hpx hx
        simp [List.filter_cons, hnx]

theorem disconnect_eq_erase (connections : List Nat) (websocket : Nat) :
    ConnectionManager.disconnect connections websocket = connections.erase websocket := by
  unfold ConnectionManager.disconnect
  by_cases hc : connections.contains websocket = true
  · rw [if_pos hc]
  · rw [if_neg hc, List.erase_of_not_mem]
    intro hm
    exact hc (List.elem_iff.mpr hm)

theorem foldl_disconnect_eq_foldl_erase :
    ∀ (ys xs : List Nat), ys.foldl ConnectionManager.disconnect xs = ys.foldl List.erase xs := by
  intro ys
  induction ys with
  | nil => intro xs; rfl
  | cons y ys ih =>
      intro xs
      simp only [List.foldl_cons, disconnect_eq_erase]
      exact ih _

/-- C6: publishing to a channel delivers to exactly the registered
subscribers whose send does not fail — one failing subscriber never blocks
delivery to the others — and afterwards the channel's registration list is
exactly the non-failing subscribers: every failing subscriber has been
unregistered by the publish call. -/
theorem C6_broadcast_failure_isolation (connections : List Nat) (send_fails : Nat → Bool) :
    (ConnectionManager.broadcast connections send_fails).1
        = connections.filter (fun c => !send_fails c)
    ∧ (ConnectionManager.broadcast connections send_fails).2
        = connections.filter (fun c => !send_fails c) := by
  unfold ConnectionManager.broadcast
  rw [foldl_partition send_fails connections [] []]
  refine ⟨by simp, ?_⟩
  simp only [List.nil_append]
  rw [foldl_disconnect_eq_foldl_erase, erase_foldl_filter]
